import Mathlib

set_option maxHeartbeats 1600000

/-!
Verification development for the p44utils expression/scripting engine
(`src/expressions.cpp` / `src/expressions.hpp`, `src/scripting.cpp`).

The C++ code is shallowly embedded: `double` is modelled as `ℚ` (all values
exercised here are exact in both), C strings as `List Char` with the
convention that reading past the end yields the NUL character (`'\x00'`),
and recursive evaluation is fuelled (structural recursion on a `Nat` fuel
argument); every claim is settled at fuel large enough that exhaustion is
unreachable.  Platform/libc services (the local-calendar normalisation used
by date literals) are parameters of the embedding.
-/

namespace P44

/-- The NUL character, standing for the C string terminator. -/
def nulChar : Char := Char.ofNat 0

/-- Models C string indexing `s[i]`: reading at or past the end of the
buffer yields the NUL terminator. -/
def cAt (s : List Char) (i : Nat) : Char := s.getD i nulChar

/-- Models `p44::Error`: an error object carries a domain string and a
numeric code (`error.cpp`).  `none` at use sites models a NULL `ErrorPtr`. -/
structure PError where
  domain : String
  code : Nat
  deriving DecidableEq, Repr

/-- Models `Error::isError(ErrorPtr, domain, code)` (`error.cpp` lines
138-142 together with 126-129, always called with a non-NULL domain):
NULL error is no error; otherwise code and domain must both match. -/
def isErr (e : Option PError) (domain : String) (code : Nat) : Bool :=
  match e with
  | none => false
  | some er => code == er.code && er.domain == domain

/-- Models `Error::isOK(ErrorPtr)`: a NULL pointer, or an error whose code
is 0 (`Error::OK`), counts as OK.  (The inline definition lives in
`error.hpp`, which is not part of the staged sources; this is the standard
p44utils definition implied by `Error::ok` in `error.cpp` and by the spec's
"isOk (not an error/null)".) -/
def errIsOK (e : Option PError) : Bool :=
  match e with
  | none => true
  | some er => er.code == 0

/-- The `ExpressionError` domain string (`expressions.hpp`). -/
def exprErrorDomain : String := "ExpressionError"

/-- `ExpressionError::ErrorCodes` from `expressions.hpp` lines 47-57:
OK, Null, Syntax, DivisionByZero, CyclicReference, Busy, NotFound,
Aborted, Timeout, in declaration order. -/
def eOK : Nat := 0
/-- `ExpressionError::Null`. -/
def eNull : Nat := 1
/-- `ExpressionError::Syntax`. -/
def eSyntax : Nat := 2
/-- `ExpressionError::DivisionByZero`. -/
def eDivisionByZero : Nat := 3
/-- `ExpressionError::CyclicReference`. -/
def eCyclicReference : Nat := 4
/-- `ExpressionError::Busy`. -/
def eBusy : Nat := 5
/-- `ExpressionError::NotFound`. -/
def eNotFound : Nat := 6
/-- `ExpressionError::Aborted`. -/
def eAborted : Nat := 7
/-- `ExpressionError::Timeout`. -/
def eTimeout : Nat := 8

/-- Builds an `ExpressionError` value (message texts are not modelled). -/
def exprErr (code : Nat) : PError := { domain := exprErrorDomain, code := code }

/-- Models `ExpressionValue` (`expressions.hpp` / `expressions.cpp`): a
source position tag, a numeric value, an optional owned string (a non-NULL
`strValP` makes the value a string), and an optional error. -/
structure ExprValue where
  pos : Nat := 0
  numVal : ℚ := 0
  strValP : Option String := none
  err : Option PError := none
  deriving DecidableEq, Repr

namespace ExprValue

/-- Models the default constructor `ExpressionValue()`: numeric 0, no
string, error set to `ExpressionError::Null` ("undefined"). -/
def undef : ExprValue := { err := some (exprErr eNull) }

/-- Models `ExpressionValue(double)`: plain numeric value, no error. -/
def ofNum (v : ℚ) : ExprValue := { numVal := v }

/-- Models `ExpressionValue(const string&)`: string value, no error. -/
def ofString (s : String) : ExprValue := { strValP := some s }

/-- Models `ExpressionValue::errValue(code, ...)`: fresh value with the
given `ExpressionError` set. -/
def errValue (code : Nat) : ExprValue := { err := some (exprErr code) }

/-- Models `isOk()`: `Error::isOK(err)`. -/
def isOk (v : ExprValue) : Bool := errIsOK v.err

/-- Models `notOk()`: `!isOk()`. -/
def notOk (v : ExprValue) : Bool := !v.isOk

/-- Models `isNull()`: the error is specifically
`ExpressionError::Null`. -/
def isNull (v : ExprValue) : Bool := isErr v.err exprErrorDomain eNull

/-- Models `isString()`: `strValP != NULL`. -/
def isString (v : ExprValue) : Bool := v.strValP.isSome

/-- Models `setNumber(double)`: clears the error and the string, sets the
number (position kept). -/
def setNumber (v : ExprValue) (n : ℚ) : ExprValue :=
  { v with numVal := n, strValP := none, err := none }

/-- Models `setBool(bool)`: number 1 or 0, error and string cleared. -/
def setBool (v : ExprValue) (b : Bool) : ExprValue :=
  { v with numVal := if b then 1 else 0, strValP := none, err := none }

/-- Models `setString(const string&)`: clears error, zeroes the number,
installs the string. -/
def setString (v : ExprValue) (s : String) : ExprValue :=
  { v with numVal := 0, strValP := some s, err := none }

/-- Models `withError(code, fmt...)`: sets the error, keeping the rest. -/
def withErr (v : ExprValue) (code : Nat) : ExprValue :=
  { v with err := some (exprErr code) }

/-- Models `withNumber(double)` (same effect as `setNumber`). -/
def withNumber (v : ExprValue) (n : ℚ) : ExprValue := v.setNumber n

/-- Models `withPos(size_t)` as used throughout `expressions.cpp`. -/
def withPos (v : ExprValue) (p : Nat) : ExprValue := { v with pos := p }

/-- Models `withValue(const ExpressionValue&)` exactly as written in
`expressions.hpp` line 99: copies `numVal` and `err`, and only when the
source holds a string installs it via `setString` (which re-clears the
error and zeroes the number); when the source holds no string, the
receiver's own `strValP` is left untouched. -/
def withValue (v a : ExprValue) : ExprValue :=
  match a.strValP with
  | some s => { v with numVal := 0, strValP := some s, err := none }
  | none => { v with numVal := a.numVal, err := a.err }

end ExprValue

/-! ### The numeric/time/date literal parser

`EvaluationContext::evaluateNumericLiteral` (`expressions.cpp` lines
487-563) drives `sscanf("%lf%n")` / `sscanf("%d.%d.")` over the term text.
The scanf conversions are modelled for their decimal forms (signs,
integer/fractional digits, optional exponent with backtracking); the
hexadecimal/infinity/nan forms a libc `strtod` would also accept are not
exercised by any literal this development evaluates. -/

/-- ASCII decimal digit test. -/
def isDigitChar (c : Char) : Bool := '0' ≤ c && c ≤ '9'

/-- ASCII letter test, models C `isalpha`. -/
def isAlphaChar (c : Char) : Bool :=
  ('a' ≤ c && c ≤ 'z') || ('A' ≤ c && c ≤ 'Z')

/-- ASCII alphanumeric test, models C `isalnum`. -/
def isAlnumChar (c : Char) : Bool := isDigitChar c || isAlphaChar c

/-- C `isspace` over the characters scanf skips. -/
def isSpaceChar (c : Char) : Bool :=
  c == ' ' || c == '\t' || c == '\n' || c == '\x0b' || c == '\x0c' || c == '\r'

/-- ASCII lower-casing, models C `tolower` on letters. -/
def toLowerChar (c : Char) : Char :=
  if 'A' ≤ c && c ≤ 'Z' then Char.ofNat (c.toNat + 32) else c

/-- Accumulates a run of decimal digits: returns the value read so far and
the count of digits consumed. -/
def scanDigitsAux (acc cnt : Nat) : List Char → Nat × Nat
  | [] => (acc, cnt)
  | ch :: rest =>
    if isDigitChar ch then scanDigitsAux (acc * 10 + (ch.toNat - 48)) (cnt + 1) rest
    else (acc, cnt)

/-- Counts a leading run of characters satisfying `p`. -/
def countWhile (p : Char → Bool) : List Char → Nat
  | [] => 0
  | ch :: rest => if p ch then countWhile p rest + 1 else 0

/-- Index just past the leading scanf-style whitespace from `i`. -/
def skipWs (s : List Char) (i : Nat) : Nat := i + countWhile isSpaceChar (s.drop i)

/-- Index just past the leading run of spaces and tabs from `i` — the
whitespace skipping the expression evaluator itself performs
(`while (aExpr[aPos]==' ' || aExpr[aPos]=='\t') aPos++`). -/
def skipSpTab (s : List Char) (i : Nat) : Nat :=
  i + countWhile (fun c => c == ' ' || c == '\t') (s.drop i)

/-- Models `sscanf(s+start, "%lf%n", &v, &n)` for decimal inputs: skips
whitespace, reads an optional sign, integer digits, an optional decimal
point with fractional digits, and an optional exponent (dropped again, as
`strtod` does, when no digit follows the `e`).  Returns the value and the
absolute index just past the consumed text, or `none` when no digit at all
was found (scanf conversion failure). -/
def parseDouble (s : List Char) (start : Nat) : Option (ℚ × Nat) :=
  let i0 := skipWs s start
  let neg := cAt s i0 == '-'
  let i1 := if cAt s i0 == '-' || cAt s i0 == '+' then i0 + 1 else i0
  match scanDigitsAux 0 0 (s.drop i1) with
  | (ip, ic) =>
    let i2 := i1 + ic
    match (if cAt s i2 == '.' then scanDigitsAux 0 0 (s.drop (i2 + 1)) else (0, 0)) with
    | (fp, fc) =>
      let i3 := if cAt s i2 == '.' then i2 + 1 + fc else i2
      if ic + fc == 0 then none
      else
        let mant : ℚ := (if neg then -1 else 1) * ((ip : ℚ) + (fp : ℚ) / (10 ^ fc))
        if cAt s i3 == 'e' || cAt s i3 == 'E' then
          let j0 := i3 + 1
          let eneg := cAt s j0 == '-'
          let j1 := if cAt s j0 == '-' || cAt s j0 == '+' then j0 + 1 else j0
          match scanDigitsAux 0 0 (s.drop j1) with
          | (ev, ec) =>
            if ec == 0 then some (mant, i3)
            else some (mant * (10 : ℚ) ^ (if eneg then -(ev : Int) else (ev : Int)), j1 + ec)
        else some (mant, i3)

/-- Models `sscanf(s, "%d", ...)` at an index: whitespace, optional sign,
decimal digits.  Returns value and index past the digits. -/
def parseIntD (s : List Char) (start : Nat) : Option (Int × Nat) :=
  let i0 := skipWs s start
  let neg := cAt s i0 == '-'
  let i1 := if cAt s i0 == '-' || cAt s i0 == '+' then i0 + 1 else i0
  match scanDigitsAux 0 0 (s.drop i1) with
  | (v, c) =>
    if c == 0 then none
    else some (if neg then -(v : Int) else (v : Int), i1 + c)

/-- Models `sscanf(term, "%d.%d.", &d, &m)` returning whether both `%d`
conversions succeeded (the trailing literal dot does not affect the
return count), with the two integers. -/
def scanDDMM (s : List Char) : Option (Int × Int) :=
  match parseIntD s 0 with
  | none => none
  | some (d, i) =>
    if cAt s i == '.' then
      match parseIntD s (i + 1) with
      | none => none
      | some (m, _) => some (d, m)
    else none

/-- C++ `(int)` conversion of a double: truncation toward zero. -/
def ratTrunc (q : ℚ) : Int := if 0 ≤ q then ⌊q⌋ else ⌈q⌉

/-- The month-name table (`expressions.cpp` line 484). -/
def monthNames : List String :=
  ["jan", "feb", "mar", "apr", "may", "jun", "jul", "aug", "sep", "oct", "nov", "dec"]

/-- The weekday-name table (`expressions.cpp` line 485). -/
def weekdayNames : List String :=
  ["sun", "mon", "tue", "wed", "thu", "fri", "sat"]

/-- Models `lowerCase` over a char list. -/
def lowerChars (s : List Char) : List Char := s.map toLowerChar

/-- Models the month-name loop of `evaluateNumericLiteral`: the lower-cased
remainder of the term must equal one of the twelve three-letter names;
returns the 1-based month. -/
def monthIndexFull (mn : List Char) : Option Nat :=
  (monthNames.findIdx? (fun nm => mn == nm.toList)).map (· + 1)

/-- Models `EvaluationContext::evaluateNumericLiteral(res, term)`
(`expressions.cpp` lines 487-563).  `cal d m` stands for the
`getLocalTime`/`mktime` normalisation returning `tm_yday` for day-of-month
`d` and month `m` in the host's current year — a platform parameter of the
embedding.  Error messages are not modelled, only the error kind. -/
def evaluateNumericLiteral (cal : Int → Nat → Int) (res : ExprValue) (term : List Char) :
    ExprValue :=
  match parseDouble term 0 with
  | none => res.withErr eSyntax
  | some (v, i) =>
    if term.length > i then
      if cAt term i == ':' then
        match parseDouble term (i + 1) with
        | none => res.withErr eSyntax
        | some (t, j) =>
          let v2 := (v * 60 + t) * 60
          if term.length > j && cAt term j == ':' then
            match parseDouble term (j + 1) with
            | none => res.withErr eSyntax
            | some (t2, _) => res.withNumber (v2 + t2)
          else res.withNumber v2
      else
        if cAt term (i - 1) == '.' && isAlphaChar (cAt term i) then
          match monthIndexFull (lowerChars (term.drop i)) with
          | none => res.withErr eSyntax
          | some m =>
            let d := ratTrunc v
            if d < 0 then res.withErr eSyntax
            else res.withNumber (cal d m)
        else if cAt term i == '.' then
          match scanDDMM term with
          | none => res.withErr eSyntax
          | some (d, m) =>
            if 0 ≤ d then res.withNumber (cal d m.toNat)
            else res.withNumber v
        else res.withErr eSyntax
    else res.withNumber v

/-! ### Value accessors that involve conversion -/

/-- Models `string_format("%lg", v)` for the integral values this
development exercises: an integer of at most six digits prints as its
decimal digit string.  (The general `%g` rendering of other doubles —
six significant digits, shortest of fixed/scientific — is not needed by
any claim and is represented by a canonical `ℚ` rendering here.) -/
def formatLG (q : ℚ) : String :=
  if q.den == 1 && q.num.natAbs < 1000000 then toString q.num
  else toString q

namespace ExprValue

/-- Models `stringValue()` (`expressions.cpp` lines 180-189): the owned
string, or the `%lg` rendering of the number; empty when not OK. -/
def stringValue (v : ExprValue) : String :=
  if v.isOk then
    match v.strValP with
    | some s => s
    | none => formatLG v.numVal
  else ""

/-- Models `numValue()` (`expressions.cpp` lines 192-199): 0 when not OK;
the raw number when numeric; for a string, the `numVal` field left in a
fresh zero value by `evaluateNumericLiteral` run on the string. -/
def numValue (cal : Int → Nat → Int) (v : ExprValue) : ℚ :=
  if !v.isOk then 0
  else
    match v.strValP with
    | none => v.numVal
    | some s => (evaluateNumericLiteral cal (ofNum 0) s.toList).numVal

/-- Models `boolValue()`: `numValue() != 0`. -/
def boolValue (cal : Int → Nat → Int) (v : ExprValue) : Bool :=
  v.numValue cal != 0

/-- Models `ExpressionValue::operator<` (`expressions.cpp` lines 202-207):
false when either side is an error/null; string comparison (left string
against the right side's string rendering) when the left side is a string;
numeric comparison otherwise. -/
def lt (cal : Int → Nat → Int) (a b : ExprValue) : Bool :=
  if a.notOk || b.notOk then false
  else
    match a.strValP with
    | some s => decide (s < b.stringValue)
    | none => decide (a.numVal < b.numValue cal)

/-- Models `ExpressionValue::operator==` (`expressions.cpp` lines 209-224):
when either side is an error/null, true exactly when both are the specific
`Null` error kind; otherwise string equality when the left side is a
string, numeric equality when it is not. -/
def eq (cal : Int → Nat → Int) (a b : ExprValue) : Bool :=
  if a.notOk || b.notOk then
    isErr b.err exprErrorDomain eNull && isErr a.err exprErrorDomain eNull
  else
    match a.strValP with
    | some s => s == b.stringValue
    | none => a.numVal == b.numValue cal

/-- Models `ExpressionValue::operator+` (lines 226-230): string
concatenation when the left side is a string (raw `numVal` otherwise, as
written). -/
def add (cal : Int → Nat → Int) (a b : ExprValue) : ExprValue :=
  match a.strValP with
  | some s => ofString (s ++ b.stringValue)
  | none => ofNum (a.numVal + b.numValue cal)

/-- Models `ExpressionValue::operator-` (lines 232-235). -/
def sub (cal : Int → Nat → Int) (a b : ExprValue) : ExprValue :=
  ofNum (a.numValue cal - b.numValue cal)

/-- Models `ExpressionValue::operator*` (lines 237-240). -/
def mul (cal : Int → Nat → Int) (a b : ExprValue) : ExprValue :=
  ofNum (a.numValue cal * b.numValue cal)

/-- Models `ExpressionValue::operator/` (lines 242-246): a fresh
`DivisionByZero` error positioned at the right side when the divisor's
numeric value is 0; the quotient otherwise (so the division itself is
only ever performed with a non-zero divisor). -/
def div (cal : Int → Nat → Int) (a b : ExprValue) : ExprValue :=
  if b.numValue cal == 0 then (errValue eDivisionByZero).withPos b.pos
  else ofNum (a.numValue cal / b.numValue cal)

/-- Models `ExpressionValue::operator&&` (lines 248-251): C `&&` on the
two numeric values, yielding 1 or 0. -/
def andOp (cal : Int → Nat → Int) (a b : ExprValue) : ExprValue :=
  ofNum (if a.numValue cal != 0 && b.numValue cal != 0 then 1 else 0)

/-- Models `ExpressionValue::operator||` (lines 253-256). -/
def orOp (cal : Int → Nat → Int) (a b : ExprValue) : ExprValue :=
  ofNum (if a.numValue cal != 0 || b.numValue cal != 0 then 1 else 0)

end ExprValue

/-! ### Operator parsing

`Operations` (`expressions.cpp` lines 694-710) encodes each operator in a
byte whose low nibble is the precedence class. -/

/-- `op_none = 0x06`. -/
def op_none : Nat := 0x06
/-- `op_not = 0x16`. -/
def op_not : Nat := 0x16
/-- `op_multiply = 0x25`. -/
def op_multiply : Nat := 0x25
/-- `op_divide = 0x35`. -/
def op_divide : Nat := 0x35
/-- `op_add = 0x44`. -/
def op_add : Nat := 0x44
/-- `op_subtract = 0x54`. -/
def op_subtract : Nat := 0x54
/-- `op_equal = 0x63`. -/
def op_equal : Nat := 0x63
/-- `op_notequal = 0x73`. -/
def op_notequal : Nat := 0x73
/-- `op_less = 0x83`. -/
def op_less : Nat := 0x83
/-- `op_greater = 0x93`. -/
def op_greater : Nat := 0x93
/-- `op_leq = 0xA3`. -/
def op_leq : Nat := 0xA3
/-- `op_geq = 0xB3`. -/
def op_geq : Nat := 0xB3
/-- `op_and = 0xC2`. -/
def op_and : Nat := 0xC2
/-- `op_or = 0xD2`. -/
def op_or : Nat := 0xD2

/-- Models `op & opmask_precedence` (`opmask_precedence = 0x0F`). -/
def opPrecedence (op : Nat) : Nat := op % 16

/-- Models the static `parseOperator` of `expressions.cpp` (lines 715-754):
skips spaces/tabs, recognises the operator (single `&`/`|`, `<=`, `<>`,
`>=`, `!=` double forms), skips trailing spaces/tabs, and returns the
operation tag together with the index past it. -/
def parseOperator (s : List Char) (pos : Nat) : Nat × Nat :=
  let i := skipSpTab s pos
  match
    (if cAt s i == '*' then (op_multiply, i + 1)
     else if cAt s i == '/' then (op_divide, i + 1)
     else if cAt s i == '+' then (op_add, i + 1)
     else if cAt s i == '-' then (op_subtract, i + 1)
     else if cAt s i == '&' then (op_and, i + 1)
     else if cAt s i == '|' then (op_or, i + 1)
     else if cAt s i == '=' then (op_equal, i + 1)
     else if cAt s i == '<' then
       if cAt s (i + 1) == '=' then (op_leq, i + 2)
       else if cAt s (i + 1) == '>' then (op_notequal, i + 2)
       else (op_less, i + 1)
     else if cAt s i == '>' then
       if cAt s (i + 1) == '=' then (op_geq, i + 2) else (op_greater, i + 1)
     else if cAt s i == '!' then
       if cAt s (i + 1) == '=' then (op_notequal, i + 2) else (op_not, i + 1)
     else (op_none, i)) with
  | (op, i2) => (op, skipSpTab s i2)

/-! ### The expression evaluator

`EvaluationContext::evaluateExpressionPrivate` / `evaluateTerm`
(`expressions.cpp` lines 566-846), embedded with a fuel bound on
recursion depth and loop iterations.  The virtual `valueLookup` and
`evaluateFunction` methods and the evaluation mode are environment
parameters. -/

/-- The evaluation modes used by `expressions.cpp` (`evalmode_current`,
`evalmode_initial`, `evalmode_externaltrigger`, `evalmode_timed`,
`evalmode_noexec`, and the further modes the header declares). -/
inductive EvalMode where
  | current
  | initial
  | externaltrigger
  | timed
  | script
  | syntaxcheck
  | noexec
  deriving DecidableEq, Repr

/-- The evaluator's environment: the platform calendar (for date
literals), the virtual `valueLookup` and `evaluateFunction` methods, and
the current evaluation mode. -/
structure EvalEnv where
  cal : Int → Nat → Int
  valueLookup : String → ExprValue
  evalFunction : String → List ExprValue → ExprValue
  evalMode : EvalMode

/-- Models the base `EvaluationContext::valueLookup` (line 480): every
name yields a `NotFound` error. -/
def defaultValueLookup : String → ExprValue := fun _ => ExprValue.errValue eNotFound

/-- Result marking exhaustion of the embedding's fuel bound; every claim
is settled at fuel large enough that this value is unreachable. -/
def fuelOut (pos : Nat) : ExprValue :=
  { pos := pos, err := some { domain := "EmbeddingFuel", code := 1 } }

/-- Hex digit value, models what `sscanf("%02x")` accepts per digit. -/
def hexDigitVal (c : Char) : Option Nat :=
  if isDigitChar c then some (c.toNat - 48)
  else if 'a' ≤ c && c ≤ 'f' then some (c.toNat - 87)
  else if 'A' ≤ c && c ≤ 'F' then some (c.toNat - 55)
  else none

/-- Models the C-string-literal scanning loop of `evaluateTerm` (lines
576-601): gathers characters until the closing quote, handling the
`\n \r \t \xHH` escapes (any other escaped character stands for itself;
after a `\xHH` escape the scanner, as written, skips one further source
character via the unconditional `aPos++`).  `.error p` is the
"unterminated string" Syntax error raised when the terminator is reached,
carrying the offending position. -/
def parseStrAux (s : List Char) : Nat → Nat → String → Except Nat (String × Nat)
  | 0, pos, _ => .error pos
  | fuel + 1, pos, acc =>
    let c := cAt s pos
    if c == '"' then .ok (acc, pos + 1)
    else if c == nulChar then .error pos
    else if c == '\\' then
      let c1 := cAt s (pos + 1)
      if c1 == 'n' then parseStrAux s fuel (pos + 2) (acc.push '\n')
      else if c1 == 'r' then parseStrAux s fuel (pos + 2) (acc.push '\r')
      else if c1 == 't' then parseStrAux s fuel (pos + 2) (acc.push '\t')
      else if c1 == 'x' then
        match hexDigitVal (cAt s (pos + 2)) with
        | some h1 =>
          let h :=
            match hexDigitVal (cAt s (pos + 3)) with
            | some h2 => h1 * 16 + h2
            | none => h1
          parseStrAux s fuel (pos + 5) (acc.push (Char.ofNat (h % 256)))
        | none => parseStrAux s fuel (pos + 3) (acc.push nulChar)
      else parseStrAux s fuel (pos + 2) (acc.push c1)
    else parseStrAux s fuel (pos + 1) (acc.push c)

/-- Applies the pending unary operator (`expressions.cpp` lines 786-790):
`!` maps a numeric value greater than 0 to 0 and anything else to 1;
unary `-` negates; any other pending tag leaves the value alone. -/
def applyUnary (cal : Int → Nat → Int) (unaryop : Nat) (res : ExprValue) : ExprValue :=
  if unaryop = op_not then res.setNumber (if res.numValue cal > 0 then 0 else 1)
  else if unaryop = op_subtract then res.setNumber (-(res.numValue cal))
  else res

/-- Applies a binary operator to accumulated left side and right side
(the `switch (binaryop)` of lines 818-833; `op_equal`, `op_notequal` and
`op_not` are handled by the caller). -/
def combineBinop (cal : Int → Nat → Int) (op : Nat) (res rightside : ExprValue) : ExprValue :=
  if op = op_divide then res.withValue (ExprValue.div cal res rightside)
  else if op = op_multiply then res.withValue (ExprValue.mul cal res rightside)
  else if op = op_add then res.withValue (ExprValue.add cal res rightside)
  else if op = op_subtract then res.withValue (ExprValue.sub cal res rightside)
  else if op = op_less then res.setBool (ExprValue.lt cal res rightside)
  else if op = op_greater then
    res.setBool (!(ExprValue.lt cal res rightside) && !(ExprValue.eq cal res rightside))
  else if op = op_leq then
    res.setBool (ExprValue.lt cal res rightside || ExprValue.eq cal res rightside)
  else if op = op_geq then res.setBool (!(ExprValue.lt cal res rightside))
  else if op = op_and then res.withValue (ExprValue.andOp cal res rightside)
  else if op = op_or then res.withValue (ExprValue.orOp cal res rightside)
  else res

/-- Models the function-call argument collection loop of `evaluateTerm`
(lines 625-638): arguments are comma-separated expressions evaluated in
order by `recur` (the recursive expression evaluator, at precedence 0);
an argument evaluating to an error other than the specific
`ExpressionError::Null` aborts the loop immediately, that value becoming
the result (`.error`); on `.ok` the collected arguments and the position
of the closing parenthesis are returned. -/
def evalArgsWith (recur : List Char → Nat → Nat → ExprValue × Nat) :
    Nat → List Char → ExprValue → Nat → List ExprValue →
    Except (ExprValue × Nat) (List ExprValue × Nat)
  | 0, _, _, pos, _ => .error (fuelOut pos, pos)
  | fuel + 1, expr, res0, pos, args =>
    let p := skipSpTab expr pos
    if cAt expr p == ')' then .ok (args, p)
    else if args.length != 0 && cAt expr p != ',' then
      .error ({ res0 with err := some (exprErr eSyntax) }, p)
    else
      let p1 := if args.length != 0 then p + 1 else p
      match recur expr p1 0 with
      | (arg, p2) =>
        if arg.notOk && !(isErr arg.err exprErrorDomain eNull) then .error (arg, p2)
        else evalArgsWith recur fuel expr res0 p2 (args ++ [arg])

/-- Models `EvaluationContext::evaluateTerm` (lines 566-690): a string
literal, or a run of term characters decoded as identifier (function
call, reserved word, variable with weekday-name fallback) or as a
numeric/time/date literal. -/
def evalTermWith (env : EvalEnv) (recur : List Char → Nat → Nat → ExprValue × Nat)
    (fuel : Nat) (expr : List Char) (pos0 : Nat) : ExprValue × Nat :=
  let res0 : ExprValue := { ExprValue.undef with pos := pos0 }
  let p := skipSpTab expr pos0
  if cAt expr p == '"' then
    match parseStrAux expr fuel (p + 1) "" with
    | .error ep => ({ res0 with err := some (exprErr eSyntax), pos := ep }, ep)
    | .ok (str, p2) => (res0.setString str, p2)
  else
    let n := countWhile (fun c => isAlnumChar c || c == '.' || c == '_' || c == ':') (expr.drop p)
    if n == 0 then (res0.withErr eSyntax, p)
    else
      let term := (expr.drop p).take n
      let p2 := skipSpTab expr (p + n)
      if isAlphaChar (cAt term 0) then
        if cAt expr p2 == '(' then
          match evalArgsWith recur fuel expr res0 (p2 + 1) [] with
          | .error (v, ep) => (v, ep)
          | .ok (args, pe) =>
            let fnres :=
              if env.evalMode ≠ EvalMode.noexec then env.evalFunction (String.mk term) args
              else ExprValue.undef
            (res0.withValue fnres, pe + 1)
        else
          let ts := String.mk term
          if ts == "true" || ts == "yes" then (res0.withNumber 1, p2)
          else if ts == "false" || ts == "no" then (res0.withNumber 0, p2)
          else if ts == "null" || ts == "undefined" then (res0.withErr eNull, p2)
          else if env.evalMode ≠ EvalMode.noexec then
            let lv := res0.withValue (env.valueLookup ts)
            if lv.notOk && isErr lv.err exprErrorDomain eNotFound then
              match weekdayNames.findIdx? (fun nm => String.mk (lowerChars term) == nm) with
              | some w => (lv.setNumber w, p2)
              | none => (lv, p2)
            else (lv, p2)
          else (res0, p2)
      else
        (evaluateNumericLiteral env.cal res0 term, p2)

/-- Models the binary-operator loop of `evaluateExpressionPrivate` (lines
791-843): peek the next operator; stop at end of text, `)`/`,`, or when
its precedence class is at most the precedence floor; `==`/`!=` are
computed first (they alone involve error/null operands meaningfully); for
every other operator an error on the right side replaces the accumulated
value, and the operation is applied only when the (possibly replaced)
value is OK. -/
def evalLoopWith (env : EvalEnv) (recur : List Char → Nat → Nat → ExprValue × Nat) :
    Nat → List Char → ExprValue → Nat → Nat → ExprValue × Nat
  | 0, _, _, pos, _ => (fuelOut pos, pos)
  | fuel + 1, expr, res, pos, aPrec =>
    if cAt expr pos == nulChar then (res, pos)
    else
      match parseOperator expr pos with
      | (binaryop, opIdx) =>
        if cAt expr opIdx == nulChar || cAt expr opIdx == ')' || cAt expr opIdx == ',' ||
            opPrecedence binaryop ≤ aPrec then (res, pos)
        else if binaryop = op_none then
          ({ res with err := some (exprErr eSyntax), pos := pos }, pos)
        else
          match recur expr opIdx (opPrecedence binaryop) with
          | (rightside, pos2) =>
            if env.evalMode = EvalMode.noexec then
              evalLoopWith env recur fuel expr res pos2 aPrec
            else if binaryop = op_equal then
              evalLoopWith env recur fuel expr
                (res.setBool (ExprValue.eq env.cal res rightside)) pos2 aPrec
            else if binaryop = op_notequal then
              evalLoopWith env recur fuel expr
                (res.setBool (!(ExprValue.eq env.cal res rightside))) pos2 aPrec
            else
              let res1 := if rightside.notOk then rightside else res
              if res1.isOk then
                if binaryop = op_not then
                  ({ res1 with err := some (exprErr eSyntax), pos := pos2 }, pos2)
                else
                  evalLoopWith env recur fuel expr
                    (combineBinop env.cal binaryop res1 rightside) pos2 aPrec
              else evalLoopWith env recur fuel expr res1 pos2 aPrec

/-- Models `EvaluationContext::evaluateExpressionPrivate` (lines 757-846):
optional unary operator, a parenthesized sub-expression (recursed at
precedence floor 0) or a simple term, unary application, then the binary
operator loop. -/
def evalExpr (env : EvalEnv) : Nat → List Char → Nat → Nat → ExprValue × Nat
  | 0, _, pos, _ => (fuelOut pos, pos)
  | Nat.succ fuel, expr, pos0, aPrec =>
    match parseOperator expr pos0 with
    | (unaryop, pos1) =>
      if unaryop ≠ op_none ∧ unaryop ≠ op_subtract ∧ unaryop ≠ op_not then
        ({ pos := pos0, err := some (exprErr eSyntax) }, pos1)
      else
        match
          (if cAt expr pos1 == '(' then
            match evalExpr env fuel expr (pos1 + 1) 0 with
            | (rv, rp) =>
              if isErr rv.err exprErrorDomain eSyntax then (rv, rp, true)
              else if cAt expr rp != ')' then
                ({ rv with err := some (exprErr eSyntax), pos := rp }, rp, true)
              else (rv, rp + 1, false)
          else
            match evalTermWith env (fun e p pr => evalExpr env fuel e p pr) fuel expr pos1 with
            | (tv, tp) =>
              if isErr tv.err exprErrorDomain eSyntax then (tv, tp, true)
              else (tv, tp, false)) with
        | (res, pos2, earlyOut) =>
          if earlyOut then (res, pos2)
          else
            evalLoopWith env (fun e p pr => evalExpr env fuel e p pr) fuel expr
              (applyUnary env.cal unaryop res) pos2 aPrec

/-- Models `EvaluationContext::evaluateNow` (lines 306-311): evaluate the
whole expression from position 0 at precedence floor 0. -/
def evaluateNow (env : EvalEnv) (fuel : Nat) (expr : List Char) : ExprValue :=
  (evalExpr env fuel expr 0 0).1

/-! ### The new scripting engine's value classes (`scripting.cpp`)

`scripting.hpp` is not among the staged sources; class-hierarchy facts
that live only there (the `ScriptError` code numbering, the base-class
accessor fallbacks) are modelled from the spec, as flagged per
definition.  The operator bodies themselves are from `scripting.cpp`. -/

/-- The `ScriptError` domain string.  Modelled from the spec: the error
taxonomy of §7 lives in `scripting.hpp`, which is not staged; only the
domain's identity (distinct from `ExpressionError`) matters here. -/
def scriptErrorDomain : String := "ScriptError"

/-- Modelled from the spec (§7 error taxonomy; `scripting.hpp` is not
staged): distinct numeric tags for the `ScriptError::ErrorCodes` used by
`scripting.cpp`.  Only distinctness of the tags is relied upon. -/
def sUser : Nat := 1
/-- `ScriptError::Internal` tag (modelled, see `sUser`). -/
def sInternal : Nat := 2
/-- `ScriptError::Busy` tag (modelled, see `sUser`). -/
def sBusy : Nat := 3
/-- `ScriptError::Syntax` tag (modelled, see `sUser`). -/
def sSyntax : Nat := 4
/-- `ScriptError::DivisionByZero` tag (modelled, see `sUser`). -/
def sDivisionByZero : Nat := 5
/-- `ScriptError::CyclicReference` tag (modelled, see `sUser`). -/
def sCyclicReference : Nat := 6
/-- `ScriptError::Invalid` tag (modelled, see `sUser`). -/
def sInvalid : Nat := 7
/-- `ScriptError::NotFound` tag (modelled, see `sUser`). -/
def sNotFound : Nat := 8
/-- `ScriptError::NotCreated` tag (modelled, see `sUser`). -/
def sNotCreated : Nat := 9
/-- `ScriptError::Aborted` tag (modelled, see `sUser`). -/
def sAborted : Nat := 10
/-- `ScriptError::Timeout` tag (modelled, see `sUser`). -/
def sTimeout : Nat := 11

/-- Builds a `ScriptError` (messages not modelled). -/
def scriptErr (code : Nat) : PError := { domain := scriptErrorDomain, code := code }

/-- The scripting engine's value objects as far as `scripting.cpp`
constructs them: annotated nulls, numbers, strings, and error values. -/
inductive ScriptObj where
  | nullV (note : String)
  | numeric (num : ℚ)
  | strV (str : String)
  | errorV (err : PError)
  deriving DecidableEq, Repr

/-- Models the virtual `errorValue()` accessor: an `ErrorValue` yields its
own error (its constructor in `scripting.cpp` lines 212-229 stores it);
for the other classes the base fallback is modelled from the spec ("when
an error/null is set, accessors must produce well-defined fallback
values") as no error. -/
def scriptErrorValue : ScriptObj → Option PError
  | .errorV e => some e
  | _ => none

/-- Models the virtual `numValue()`: a `NumericValue` yields its number;
`StringValue::numValue` is the placeholder in `scripting.cpp` lines
232-236, which literally returns 42 for now; for nulls and errors the
base fallback is modelled from the spec as 0. -/
def scriptNumValue : ScriptObj → ℚ
  | .numeric n => n
  | .strV _ => 42
  | _ => 0

/-- Models the virtual `stringValue()`: a `StringValue` yields its string;
the renderings of the other classes are modelled from the spec (numbers
via the generic float format, empty string otherwise). -/
def scriptStringValue : ScriptObj → String
  | .strV s => s
  | .numeric n => formatLG n
  | _ => ""

/-- Models `operator==` over the value classes (`scripting.cpp` lines
95-114): `NumericValue` compares its number against the right side's
`numValue()`; `StringValue` its string against `stringValue()`;
`ErrorValue` holds exactly when the right side's error has the same
domain and error code (`errorValue()->isError(e->domain(),
e->getErrorCode())`) — the right side carrying no error is modelled as
false (the C++ would dereference a NULL `ErrorPtr` there); the base
`ScriptObj::operator==` is instance identity, which between distinct
value objects is false. -/
def scriptEq (a b : ScriptObj) : Bool :=
  match a with
  | .numeric n => n == scriptNumValue b
  | .strV s => s == scriptStringValue b
  | .errorV e =>
    match scriptErrorValue b with
    | some e2 => e2.code == e.code && e.domain == e2.domain
    | none => false
  | .nullV _ => false

/-- Models `operator<` over the value classes (`scripting.cpp` lines
119-132): numeric and string compare their own value against the right
side's coercion; every other class inherits the base
`ScriptObj::operator<`, which is always false ("undefined comparisons
are always false"). -/
def scriptLt (a b : ScriptObj) : Bool :=
  match a with
  | .numeric n => decide (n < scriptNumValue b)
  | .strV s => decide (s < scriptStringValue b)
  | _ => false

/-- Models `NumericValue::operator/` (`scripting.cpp` lines 184-192): a
`DivisionByZero` `ErrorValue` when the right side's numeric value is 0,
the quotient otherwise. -/
def scriptDiv (num : ℚ) (b : ScriptObj) : ScriptObj :=
  if scriptNumValue b == 0 then .errorV (scriptErr sDivisionByZero)
  else .numeric (num / scriptNumValue b)

/-- Models `NumericValue::operator%` (`scripting.cpp` lines 194-206): a
`DivisionByZero` `ErrorValue` when the right side's numeric value is 0;
otherwise the float remainder `a - b * (int64_t)(a/b)`. -/
def scriptMod (num : ℚ) (b : ScriptObj) : ScriptObj :=
  if scriptNumValue b == 0 then .errorV (scriptErr sDivisionByZero)
  else
    let bv := scriptNumValue b
    let q : Int := ratTrunc (num / bv)
    .numeric (num - bv * q)

/-! ### `CodeCursor::parseNumericLiteral` (`scripting.cpp` lines 1092-1165) -/

/-- Models the month loop of `CodeCursor::parseNumericLiteral`:
`strucmp(ptr+o, monthNames[m], 3) == 0`, a case-insensitive three
character prefix comparison (reads past the end see the terminator).
Returns the 1-based month. -/
def monthIndexPrefix3 (s : List Char) (o : Nat) : Option Nat :=
  (monthNames.findIdx? (fun nm =>
    toLowerChar (cAt s o) == nm.toList.getD 0 ' ' &&
    toLowerChar (cAt s (o + 1)) == nm.toList.getD 1 ' ' &&
    toLowerChar (cAt s (o + 2)) == nm.toList.getD 2 ' ')).map (· + 1)

/-- Models `sscanf(ptr, "%d.%d.%n", &d, &m, &l)`: both `%d` conversions
must succeed across a literal dot; the `%n` count (`some` = index past
the trailing dot) is only assigned when the trailing dot also matched —
in the C source `l` stays uninitialized otherwise. -/
def scanDDMMn (s : List Char) (start : Nat) : Option (Int × Int × Option Nat) :=
  match parseIntD s start with
  | none => none
  | some (d, i) =>
    if cAt s i == '.' then
      match parseIntD s (i + 1) with
      | none => none
      | some (m, j) =>
        if cAt s j == '.' then some (d, m, some (j + 1)) else some (d, m, none)
    else none

/-- Models `CodeCursor::parseNumericLiteral(aNumber)` (`scripting.cpp`
lines 1092-1165) on a cursor at index `pos` of `s`: a plain number,
a `h:m`/`h:m:s` time literal in seconds, or a `dd.monthname` /
`dd.mm.` date literal resolved through the platform calendar `cal`
(noon-normalised `mktime`, a parameter here).  Returns the number and
the cursor position after `advance(o)`, or the Syntax error.  In the
`dd.mm.` form without its trailing dot the C source adds an
uninitialized `%n` count to the cursor; that unspecified advance is
modelled as 0. -/
def ccParseNumericLiteral (cal : Int → Nat → Int) (s : List Char) (pos : Nat) :
    Except PError (ℚ × Nat) :=
  match parseDouble s pos with
  | none => .error (scriptErr sSyntax)
  | some (v, o) =>
    if cAt s o != nulChar then
      if cAt s o == ':' then
        match parseDouble s (o + 1) with
        | none => .error (scriptErr sSyntax)
        | some (t, o2) =>
          let v2 := (v * 60 + t) * 60
          if cAt s o2 == ':' then
            match parseDouble s (o2 + 1) with
            | none => .error (scriptErr sSyntax)
            | some (t2, o3) => .ok (v2 + t2, o3)
          else .ok (v2, o2)
      else
        if cAt s (o - 1) == '.' && isAlphaChar (cAt s o) then
          match monthIndexPrefix3 s o with
          | some m =>
            let d := ratTrunc v
            if d < 0 then .error (scriptErr sSyntax) else .ok (cal d m, o + 3)
          | none => .error (scriptErr sSyntax)
        else if cAt s o == '.' then
          match scanDDMMn s pos with
          | none => .error (scriptErr sSyntax)
          | some (d, m, lEnd) =>
            let oEnd := lEnd.getD pos
            if 0 ≤ d then .ok (cal d m.toNat, oEnd) else .ok (v, oEnd)
        else .ok (v, o)
    else .ok (v, o)

/-! ### Time constants and the thread resume-loop guards -/

/-- `MLMicroSeconds Never = 0` (`mainloop.hpp` line 25). -/
def Never : Int := 0

/-- `MLMicroSeconds Infinite = -1` (`mainloop.hpp` line 26). -/
def Infinite : Int := -1

/-- What one iteration of the `ScriptCodeThread::resume` loop decides
before stepping the state machine (`scripting.cpp` lines 1407-1432). -/
inductive ResumeAction where
  | endAborted
  | endTimeoutTotal
  | endTimeoutBlock
  | yieldAutoResume
  | step
  deriving DecidableEq, Repr

/-- Models the guard checks at the top of each `ScriptCodeThread::resume`
loop iteration (`scripting.cpp` lines 1407-1432), exactly as written:
abort first; then `if (maxRunTime!=Infinite && now-runningSince)` — the
elapsed time used directly as a C truth value, i.e. the branch is taken
whenever any time at all has elapsed — ends the thread with the
"overall execution limit" Timeout; then the block-time check ends a
synchronous thread with the "synchronous execution limit" Timeout and
makes an asynchronous one schedule a later self-resume. -/
def resumeCheck (aborted : Bool) (maxRunTime maxBlockTime : Int)
    (runningSince loopingSince now : Int) (synchronous : Bool) : ResumeAction :=
  if aborted then .endAborted
  else if maxRunTime ≠ Infinite ∧ now - runningSince ≠ 0 then .endTimeoutTotal
  else if maxBlockTime ≠ Infinite ∧ now - loopingSince > maxBlockTime then
    if synchronous then .endTimeoutBlock else .yieldAutoResume
  else .step

/-! ### The timed evaluation context's frozen results -/

/-- Models `TimedEvaluationContext::FrozenResult`: the pinned value and
its deadline (`Infinite` = indefinite freeze, `Never` = expired). -/
structure FrozenResult where
  frozenResult : ExprValue
  frozenUntil : Int
  deriving DecidableEq, Repr

/-- Models `FrozenResult::frozen()` (`expressions.cpp` lines 1058-1061). -/
def FrozenResult.frozen (fr : FrozenResult) (now : Int) : Bool :=
  fr.frozenUntil == Infinite || (fr.frozenUntil != Never && fr.frozenUntil > now)

/-- The frozen-results table `std::map<size_t, FrozenResult>`, observed
as an association list keyed by source position. -/
abbrev FrozenMap := List (Nat × FrozenResult)

/-- `std::map::find`. -/
def mapFind : FrozenMap → Nat → Option FrozenResult
  | [], _ => none
  | (k, fr) :: rest, key => if k = key then some fr else mapFind rest key

/-- `std::map` keyed assignment (`operator[] =`): replaces the entry with
this key, or adds one. -/
def mapInsert : FrozenMap → Nat → FrozenResult → FrozenMap
  | [], key, fr => [(key, fr)]
  | (k, f0) :: rest, key, fr =>
    if k = key then (k, fr) :: rest else (k, f0) :: mapInsert rest key fr

/-- `std::map::erase` by key. -/
def mapErase : FrozenMap → Nat → FrozenMap
  | [], _ => []
  | (k, f0) :: rest, key => if k = key then rest else (k, f0) :: mapErase rest key

/-- Models `TimedEvaluationContext::getFrozen` (lines 1038-1055): look up
the value's source position; on a hit the passed-in value is overwritten
with the frozen result and an entry whose freeze has expired is marked
`frozenUntil = Never`; no entry is removed here.  Returns the entry as
the caller's pointer sees it after the call, the (possibly overwritten)
value, and the table. -/
def getFrozen (m : FrozenMap) (res : ExprValue) (now : Int) :
    Option FrozenResult × ExprValue × FrozenMap :=
  match mapFind m res.pos with
  | none => (none, res, m)
  | some fr =>
    if fr.frozen now then (some fr, fr.frozenResult, m)
    else
      let fr2 := { fr with frozenUntil := Never }
      (some fr2, fr.frozenResult, mapInsert m res.pos fr2)

/-- Models `TimedEvaluationContext::newFreeze` (lines 1064-1087); the
existing entry the C++ passes by pointer is identified by its key.  With
no existing entry a new one is created under the new result's position;
an existing one is updated only when it is no longer frozen, the update
flag is set, or the new deadline is `Never` (immediate release). -/
def newFreeze (m : FrozenMap) (existingKey : Option Nat) (newResult : ExprValue)
    (freezeUntil : Int) (update : Bool) (now : Int) : FrozenMap :=
  match existingKey with
  | none => mapInsert m newResult.pos { frozenResult := newResult, frozenUntil := freezeUntil }
  | some k =>
    match mapFind m k with
    | none => m
    | some fr =>
      if !(fr.frozen now) || update || freezeUntil == Never then
        mapInsert m k
          { frozenResult := fr.frozenResult.withValue newResult, frozenUntil := freezeUntil }
      else m

/-- Models `TimedEvaluationContext::unfreeze` (lines 1090-1098): erase by
source position, reporting whether an entry existed. -/
def unfreeze (m : FrozenMap) (atPos : Nat) : Bool × FrozenMap :=
  match mapFind m atPos with
  | some _ => (true, mapErase m atPos)
  | none => (false, m)

/-- Models the sweep over the frozen-results table inside
`TimedEvaluationContext::evaluateNow` (lines 875-884): entries already
marked expired (`frozenUntil == Never`) are erased, every other entry is
kept (feeding `updateNextEval`). -/
def sweepFrozen (m : FrozenMap) : FrozenMap :=
  m.filter (fun kv => kv.2.frozenUntil != Never)

/-- Keys of the table are pairwise distinct — the `std::map` invariant
("at most one frozen result per source offset"). -/
abbrev keysNodup (m : FrozenMap) : Prop := (m.map Prod.fst).Nodup

/-! ### `EvaluationContext::triggerEvaluation` (lines 314-336) -/

/-- The outcome of `triggerEvaluation` as the caller observes it: the
returned error, whether `evaluateNow` ran, and the context's `evaluating`
flag afterwards. -/
structure TriggerOutcome where
  err : Option PError
  evaluated : Bool
  evaluatingAfter : Bool
  deriving DecidableEq, Repr

/-- Models `EvaluationContext::triggerEvaluation`: when the context's
`evaluating` flag is already set it returns a `CyclicReference` error at
once, without evaluating; otherwise it sets the flag, runs the
evaluation, hands the result to the result handler (or, with no handler,
passes a failed evaluation's error through), and clears the flag. -/
def triggerEvaluation (evaluating : Bool) (evalNow : Unit → ExprValue)
    (resultHandler : Option (ExprValue → Option PError)) : TriggerOutcome :=
  if evaluating then
    { err := some (exprErr eCyclicReference), evaluated := false, evaluatingAfter := true }
  else
    let res := evalNow ()
    let err :=
      match resultHandler with
      | some h => h res
      | none => if res.notOk then res.err else none
    { err := err, evaluated := true, evaluatingAfter := false }

/-! ### Concrete instances used by the theorems -/

/-- A trivial platform calendar for concrete evaluations (no claim settled
here exercises date literals). -/
def cal0 : Int → Nat → Int := fun _ _ => 0

/-- A concrete environment for evaluator test cases: default variable
lookup, no host functions, initial evaluation mode. -/
def testEnv : EvalEnv :=
  { cal := cal0, valueLookup := defaultValueLookup,
    evalFunction := fun _ _ => ExprValue.undef, evalMode := EvalMode.initial }

/-- An environment whose lookup distinguishes a null-valued variable
(`nul`), a variable whose evaluation fails with a Timeout error (`boom`),
and unknown names; its function implementation is an instrument that
records into its result the called name and, per argument, the argument's
source position and error code — so a result carries this marker string
exactly when the function implementation was actually invoked, and the
marker shows precisely which argument values it received. -/
def c6Env : EvalEnv :=
  { cal := cal0,
    valueLookup := fun n =>
      if n = "nul" then ExprValue.errValue eNull
      else if n = "boom" then ExprValue.errValue eTimeout
      else ExprValue.errValue eNotFound,
    evalFunction := fun name args =>
      ExprValue.ofString
        (name ++ "#" ++ String.join (args.map (fun a =>
          "(" ++ Nat.repr a.pos ++ "," ++
            (match a.err with
             | some e => "e" ++ Nat.repr e.code
             | none => "-") ++ ")"))),
    evalMode := EvalMode.initial }

deriving instance DecidableEq for Except

attribute [local semireducible] Rat.mul Rat.add Rat.sub Rat.inv

/-- C1 (amended): legacy engine — with at least one error/null operand,
equality holds iff both sides are the Null kind and ordering is false;
scripting engine — an ErrorValue equals another error value iff domain
and code match, ordering with the error value on the left is always
false (the base `ScriptObj::operator<`), but ordering with the error on
the right dispatches on the left operand: `NumericValue::operator<`
compares its number against the error's numeric fallback 0, so a
negative number compares less than an error value. -/
theorem C1_error_null_comparisons :
    (∀ (cal : Int → Nat → Int) (a b : ExprValue), (a.notOk || b.notOk) = true →
      ((ExprValue.eq cal a b = true ↔ (a.isNull = true ∧ b.isNull = true)) ∧
        ExprValue.lt cal a b = false)) ∧
    (∀ (e e2 : PError) (x : ScriptObj),
      (scriptEq (ScriptObj.errorV e) (ScriptObj.errorV e2) = true ↔
        e2.code = e.code ∧ e.domain = e2.domain) ∧
      scriptLt (ScriptObj.errorV e) x = false) ∧
    (∀ (n : ℚ) (e : PError),
      scriptLt (ScriptObj.numeric n) (ScriptObj.errorV e) = decide (n < 0)) := by
  refine ⟨?_, ?_, ?_⟩
  · intro cal a b h
    constructor
    · simp [ExprValue.eq, h, ExprValue.isNull, and_comm]
    · simp [ExprValue.lt, h]
  · intro e e2 x
    constructor
    · simp [scriptEq, scriptErrorValue]
    · simp [scriptLt]
  · intro n e
    simp [scriptLt, scriptNumValue]

theorem C1_witness :
    (ExprValue.undef.notOk || ExprValue.undef.notOk) = true ∧
    (ExprValue.eq cal0 ExprValue.undef ExprValue.undef = true ↔
      (ExprValue.undef.isNull = true ∧ ExprValue.undef.isNull = true)) ∧
    ExprValue.lt cal0 ExprValue.undef ExprValue.undef = false :=
  ⟨by decide, (C1_error_null_comparisons.1 cal0 _ _ (by decide)).1,
    (C1_error_null_comparisons.1 cal0 _ _ (by decide)).2⟩

/-- C1 counterexample: in the scripting engine two `Timeout` error values
(neither of them the Null kind) compare equal, refuting "a == b returns
true only if both are specifically the Null kind"; and a numeric -1
compares less than an error value (the error's numeric fallback is 0),
refuting "for every such pair, a < b returns false". -/
theorem C1_counterexample :
    scriptEq (ScriptObj.errorV (scriptErr sTimeout)) (ScriptObj.errorV (scriptErr sTimeout)) = true
      ∧ sTimeout ≠ eNull ∧ scriptErr sTimeout ≠ exprErr eNull
      ∧ scriptLt (ScriptObj.numeric (-1)) (ScriptObj.errorV (scriptErr sTimeout)) = true := by
  decide

/-- C2 counterexample: `78 == "78.00"` — the right operand is a string and
both sides are OK, yet the comparison is numeric (true), not lexicographic
on the string representations (which differ, "78" against "78.00"): an
either-side string does not force lexicographic comparison. -/
theorem C2_counterexample :
    (ExprValue.ofNum 78).isOk = true ∧ (ExprValue.ofString "78.00").isOk = true ∧
    (ExprValue.ofString "78.00").isString = true ∧
    ExprValue.eq cal0 (ExprValue.ofNum 78) (ExprValue.ofString "78.00") = true ∧
    ((ExprValue.ofNum 78).stringValue == (ExprValue.ofString "78.00").stringValue) = false := by
  decide

/-- C2 (amended): for OK operands the dispatch is on the left side only —
a string left side compares lexicographically against the right side's
string rendering, a numeric left side compares numerically against the
right side's numeric coercion, for `==` and `<` alike. -/
theorem C2_comparison_dispatch : ∀ (cal : Int → Nat → Int) (a b : ExprValue),
    a.isOk = true → b.isOk = true →
    ((∀ s, a.strValP = some s →
        (ExprValue.eq cal a b = (s == b.stringValue) ∧
         ExprValue.lt cal a b = decide (s < b.stringValue))) ∧
     (a.strValP = none →
        (ExprValue.eq cal a b = (a.numVal == b.numValue cal) ∧
         ExprValue.lt cal a b = decide (a.numVal < b.numValue cal)))) := by
  intro cal a b ha hb
  have hno : (a.notOk || b.notOk) = false := by
    simp [ExprValue.notOk, ha, hb]
  constructor
  · intro s hs
    constructor
    · simp [ExprValue.eq, hno, hs]
    · simp [ExprValue.lt, hno, hs]
  · intro hs
    constructor
    · simp [ExprValue.eq, hno, hs]
    · simp [ExprValue.lt, hno, hs]

theorem C2_witness :
    (ExprValue.ofString "78").isOk = true ∧ (ExprValue.ofString "78.00").isOk = true ∧
    (ExprValue.ofString "78").strValP = some "78" ∧
    ExprValue.eq cal0 (ExprValue.ofString "78") (ExprValue.ofString "78.00") =
      ("78" == (ExprValue.ofString "78.00").stringValue) :=
  ⟨by decide, by decide, by decide,
    (((C2_comparison_dispatch cal0 _ _ (by decide) (by decide)).1 "78" (by decide)).1)⟩

/-- C3: dividing by a value whose numeric value is 0 yields a
`DivisionByZero` error in both engines (the quotient is only ever formed
with a non-zero divisor), the scripting `%` likewise; and the whole
expression `78/0` evaluates to a `DivisionByZero` error value. -/
theorem C3_division_by_zero :
    (∀ (cal : Int → Nat → Int) (a b : ExprValue),
      (b.numValue cal = 0 →
        ExprValue.div cal a b = (ExprValue.errValue eDivisionByZero).withPos b.pos) ∧
      (b.numValue cal ≠ 0 →
        ExprValue.div cal a b = ExprValue.ofNum (a.numValue cal / b.numValue cal))) ∧
    (∀ (n : ℚ) (b : ScriptObj),
      (scriptNumValue b = 0 →
        scriptDiv n b = ScriptObj.errorV (scriptErr sDivisionByZero) ∧
        scriptMod n b = ScriptObj.errorV (scriptErr sDivisionByZero)) ∧
      (scriptNumValue b ≠ 0 →
        scriptDiv n b = ScriptObj.numeric (n / scriptNumValue b))) ∧
    (evaluateNow testEnv 99 "78/0".toList).err = some (exprErr eDivisionByZero) := by
  refine ⟨?_, ?_, by decide⟩
  · intro cal a b
    constructor
    · intro h; simp [ExprValue.div, h]
    · intro h; simp [ExprValue.div, h]
  · intro n b
    constructor
    · intro h; simp [scriptDiv, scriptMod, h]
    · intro h; simp [scriptDiv, h]

theorem C3_witness :
    (ExprValue.ofNum 0).numValue cal0 = 0 ∧
    ExprValue.div cal0 (ExprValue.ofNum 78) (ExprValue.ofNum 0) =
      (ExprValue.errValue eDivisionByZero).withPos (ExprValue.ofNum 0).pos ∧
    scriptDiv 78 (ScriptObj.numeric 0) = ScriptObj.errorV (scriptErr sDivisionByZero) :=
  ⟨by decide,
    (C3_division_by_zero.1 cal0 (ExprValue.ofNum 78) (ExprValue.ofNum 0)).1 (by decide),
    ((C3_division_by_zero.2.1 78 (ScriptObj.numeric 0)).1 (by decide)).1⟩

/-- C8 (code bug): with a finite 10-second total-run-time limit and only
one microsecond elapsed (far below the limit), the guard as written
already ends the thread with the "overall execution limit" Timeout,
because `now - runningSince` is used as a truth value instead of being
compared against `maxRunTime`. -/
theorem C8_total_runtime_guard_fires_early :
    resumeCheck false 10000000 Infinite 0 0 1 true = ResumeAction.endTimeoutTotal ∧
    ¬((1 : Int) - 0 > 10000000) := by decide

/-- C9: with the context's `evaluating` flag already set,
`triggerEvaluation` returns the `CyclicReference` error immediately, for
every evaluator and result handler — no evaluation is performed. -/
theorem C9_reentrancy_guard :
    ∀ (evalNow : Unit → ExprValue) (resultHandler : Option (ExprValue → Option PError)),
    triggerEvaluation true evalNow resultHandler =
      { err := some (exprErr eCyclicReference), evaluated := false, evaluatingAfter := true } := by
  intro e h; rfl

/-- C10: the unary `!` yields 1 exactly when the operand's numeric value
is at most 0 and 0 otherwise; in particular a negative-valued operand has
`boolValue()` true yet `!x = 1`, so `!` is not the negation of
`boolValue()`; and `!(0-5)` evaluates to 1. -/
theorem C10_unary_not_operator :
    (∀ (cal : Int → Nat → Int) (x : ExprValue),
      (x.numValue cal ≤ 0 → (applyUnary cal op_not x).numVal = 1) ∧
      (0 < x.numValue cal → (applyUnary cal op_not x).numVal = 0) ∧
      (x.numValue cal < 0 → x.boolValue cal = true ∧ (applyUnary cal op_not x).numVal = 1)) ∧
    (evaluateNow testEnv 99 "!(0-5)".toList).numVal = 1 := by
  constructor
  · intro cal x
    refine ⟨?_, ?_, ?_⟩
    · intro h
      simp [applyUnary, ExprValue.setNumber, not_lt.mpr h]
    · intro h
      simp [applyUnary, ExprValue.setNumber, h]
    · intro h
      refine ⟨?_, ?_⟩
      · simp [ExprValue.boolValue, h.ne]
      · simp [applyUnary, ExprValue.setNumber, not_lt.mpr h.le]
  · decide

theorem C10_witness :
    (ExprValue.ofNum (-5)).numValue cal0 < 0 ∧
    (ExprValue.ofNum (-5)).boolValue cal0 = true ∧
    (applyUnary cal0 op_not (ExprValue.ofNum (-5))).numVal = 1 :=
  ⟨by decide, ((C10_unary_not_operator.1 cal0 (ExprValue.ofNum (-5))).2.2 (by decide)).1,
    ((C10_unary_not_operator.1 cal0 (ExprValue.ofNum (-5))).2.2 (by decide)).2⟩

/-- C4: the precedence tags order the operators as not(6) above
multiply/divide(5) above add/subtract(4) above comparisons(3) above
and/or(2); the binary-operator loop stops whenever the next operator's
precedence class is at most the floor passed in (so same-precedence
operators associate left-to-right); and `12*3+7`, `12*(3+7)`, `12/3-7`
evaluate to 43, 120 and -3 (and `10-3-4` to 3, left association). -/
theorem C4_precedence_climbing :
    (opPrecedence op_not = 6 ∧
     opPrecedence op_multiply = 5 ∧ opPrecedence op_divide = 5 ∧
     opPrecedence op_add = 4 ∧ opPrecedence op_subtract = 4 ∧
     opPrecedence op_equal = 3 ∧ opPrecedence op_notequal = 3 ∧
     opPrecedence op_less = 3 ∧ opPrecedence op_greater = 3 ∧
     opPrecedence op_leq = 3 ∧ opPrecedence op_geq = 3 ∧
     opPrecedence op_and = 2 ∧ opPrecedence op_or = 2) ∧
    (∀ (env : EvalEnv) (recur : List Char → Nat → Nat → ExprValue × Nat)
        (fuel : Nat) (expr : List Char) (res : ExprValue) (pos aPrec : Nat),
      opPrecedence (parseOperator expr pos).1 ≤ aPrec →
      evalLoopWith env recur (fuel + 1) expr res pos aPrec = (res, pos)) ∧
    (evaluateNow testEnv 99 "12*3+7".toList).numVal = 43 ∧
    (evaluateNow testEnv 99 "12*(3+7)".toList).numVal = 120 ∧
    (evaluateNow testEnv 99 "12/3-7".toList).numVal = -3 ∧
    (evaluateNow testEnv 99 "10-3-4".toList).numVal = 3 := by
  refine ⟨by decide, ?_, by decide, by decide, by decide, by decide⟩
  intro env recur fuel expr res pos aPrec h
  rcases hp : parseOperator expr pos with ⟨bop, oi⟩
  rw [hp] at h
  simp only at h
  simp [evalLoopWith, hp, h]

theorem C4_witness :
    opPrecedence (parseOperator "+7".toList 0).1 ≤ 4 ∧
    evalLoopWith testEnv (fun e p pr => evalExpr testEnv 98 e p pr) (98 + 1) "+7".toList
      (ExprValue.ofNum 5) 0 4 = (ExprValue.ofNum 5, 0) :=
  ⟨by decide, C4_precedence_climbing.2.1 testEnv _ 98 _ _ _ _ (by decide)⟩

/-- C5: in both engines' numeric-literal parsers, a literal of the form
`H:M` parses to `(H*60+M)*60` seconds and `H:M:S` to `(H*60+M)*60+S`
(each part a scanf float, so fractional parts are allowed; the seconds
component is optional); `12:35` gives 45300 and `14:57:42` gives 53862. -/
theorem C5_time_literals :
    (∀ (cal : Int → Nat → Int) (res : ExprValue) (term : List Char) (H M : ℚ) (i j : Nat),
      parseDouble term 0 = some (H, i) → term.length > i → cAt term i = ':' →
      parseDouble term (i + 1) = some (M, j) →
      (term.length > j → cAt term j ≠ ':') →
      evaluateNumericLiteral cal res term = res.withNumber ((H * 60 + M) * 60)) ∧
    (∀ (cal : Int → Nat → Int) (res : ExprValue) (term : List Char) (H M S : ℚ) (i j k : Nat),
      parseDouble term 0 = some (H, i) → term.length > i → cAt term i = ':' →
      parseDouble term (i + 1) = some (M, j) → term.length > j → cAt term j = ':' →
      parseDouble term (j + 1) = some (S, k) →
      evaluateNumericLiteral cal res term = res.withNumber ((H * 60 + M) * 60 + S)) ∧
    (∀ (cal : Int → Nat → Int) (s : List Char) (pos : Nat) (H M : ℚ) (o o2 : Nat),
      parseDouble s pos = some (H, o) → cAt s o = ':' →
      parseDouble s (o + 1) = some (M, o2) → cAt s o2 ≠ ':' →
      ccParseNumericLiteral cal s pos = .ok ((H * 60 + M) * 60, o2)) ∧
    (∀ (cal : Int → Nat → Int) (s : List Char) (pos : Nat) (H M S : ℚ) (o o2 o3 : Nat),
      parseDouble s pos = some (H, o) → cAt s o = ':' →
      parseDouble s (o + 1) = some (M, o2) → cAt s o2 = ':' →
      parseDouble s (o2 + 1) = some (S, o3) →
      ccParseNumericLiteral cal s pos = .ok ((H * 60 + M) * 60 + S, o3)) ∧
    (evaluateNumericLiteral cal0 (ExprValue.ofNum 0) "12:35".toList).numVal = 45300 ∧
    (evaluateNumericLiteral cal0 (ExprValue.ofNum 0) "14:57:42".toList).numVal = 53862 ∧
    ccParseNumericLiteral cal0 "12:35".toList 0 = .ok (45300, 5) ∧
    ccParseNumericLiteral cal0 "14:57:42".toList 0 = .ok (53862, 8) := by
  refine ⟨?_, ?_, ?_, ?_, by decide, by decide, by decide, by decide⟩
  · intro cal res term H M i j h1 h2 h3 h4 h5
    have hc : (decide (term.length > j) && (cAt term j == ':')) = false := by
      by_cases hj : term.length > j
      · simp [h5 hj]
      · simp [hj]
    simp [evaluateNumericLiteral, h1, h2, h3, h4, hc]
  · intro cal res term H M S i j k h1 h2 h3 h4 h5 h6 h7
    simp [evaluateNumericLiteral, h1, h2, h3, h4, h5, h6, h7]
  · intro cal s pos H M o o2 h1 h2 h3 h4
    simp [ccParseNumericLiteral, h1, h2, h3, h4, nulChar]
  · intro cal s pos H M S o o2 o3 h1 h2 h3 h4 h5
    simp [ccParseNumericLiteral, h1, h2, h3, h4, h5, nulChar]

theorem C5_witness :
    parseDouble "12:35".toList 0 = some (12, 2) ∧
    parseDouble "12:35".toList 3 = some (35, 5) ∧
    evaluateNumericLiteral cal0 (ExprValue.ofNum 0) "12:35".toList =
      (ExprValue.ofNum 0).withNumber ((12 * 60 + 35) * 60) ∧
    ccParseNumericLiteral cal0 "14:57:42".toList 0 = .ok ((14 * 60 + 57) * 60 + 42, 8) :=
  ⟨by decide, by decide,
    C5_time_literals.1 cal0 (ExprValue.ofNum 0) "12:35".toList 12 35 2 5 (by decide) (by decide)
      (by decide) (by decide) (by decide),
    C5_time_literals.2.2.2.1 cal0 "14:57:42".toList 0 14 57 42 2 5 8 (by decide) (by decide)
      (by decide) (by decide) (by decide)⟩

/-- C6: in the argument-collection loop, a comma-separated argument whose
evaluation yields an error other than the specific `ExpressionError::Null`
aborts the call immediately with that error as the result; concretely,
`fn(1,boom,2)` returns the Timeout error of its second argument and the
(instrumented) function implementation's marker is absent from the result
— it was never invoked — while for `fn(1,nul,2)` the function runs and
its recorded argument list shows the null argument passed through in
order (positions 3, 5, 9; error code 1 = Null on the middle one). -/
theorem C6_argument_evaluation :
    (∀ (recur : List Char → Nat → Nat → ExprValue × Nat) (fuel : Nat) (expr : List Char)
        (res0 : ExprValue) (pos : Nat) (args : List ExprValue) (arg : ExprValue) (p2 : Nat),
      cAt expr (skipSpTab expr pos) ≠ ')' →
      (args.length ≠ 0 → cAt expr (skipSpTab expr pos) = ',') →
      recur expr (if args.length != 0 then skipSpTab expr pos + 1 else skipSpTab expr pos) 0 =
        (arg, p2) →
      arg.notOk = true → isErr arg.err exprErrorDomain eNull = false →
      evalArgsWith recur (fuel + 1) expr res0 pos args = Except.error (arg, p2)) ∧
    evalExpr c6Env 99 "fn(1,boom,2)".toList 0 0 =
      ({ pos := 5, numVal := 0, strValP := none, err := some (exprErr eTimeout) }, 9) ∧
    evalExpr c6Env 99 "fn(1,nul,2)".toList 0 0 =
      ({ pos := 0, numVal := 0, strValP := some "fn#(3,-)(5,e1)(9,-)", err := none }, 11) := by
  refine ⟨?_, by decide, by decide⟩
  intro recur fuel expr res0 pos args arg p2 h1 h2 h3 h4 h5
  have hp : (cAt expr (skipSpTab expr pos) == ')') = false := by simp [h1]
  rcases args with _ | ⟨a0, rest⟩
  · simp only [List.length_nil, bne_self_eq_false, Bool.false_eq_true, if_false] at h3
    simp [evalArgsWith, hp, h3, h4, h5]
  · have hc : cAt expr (skipSpTab expr pos) = ',' := h2 (by simp)
    simp only [List.length_cons, bne_iff_ne, ne_eq, Nat.succ_ne_zero, not_false_eq_true,
      if_true] at h3
    simp [evalArgsWith, hp, hc, h3, h4, h5]

theorem C6_witness :
    cAt "x)".toList (skipSpTab "x)".toList 0) ≠ ')' ∧
    evalArgsWith (fun _ _ _ => (ExprValue.errValue eTimeout, 7)) (0 + 1) "x)".toList
      ExprValue.undef 0 [] = Except.error (ExprValue.errValue eTimeout, 7) :=
  ⟨by decide,
    C6_argument_evaluation.1 (fun _ _ _ => (ExprValue.errValue eTimeout, 7)) 0 _ _ 0 [] _ 7
      (by decide) (fun h => absurd rfl h) rfl (by decide) (by decide)⟩

/-- Membership in the key list after a `mapInsert`. -/
theorem mem_keys_mapInsert (m : FrozenMap) (k x : Nat) (fr : FrozenResult) :
    x ∈ (mapInsert m k fr).map Prod.fst ↔ x ∈ m.map Prod.fst ∨ x = k := by
  induction m with
  | nil => simp [mapInsert]
  | cons hd tl ih =>
    obtain ⟨k0, f0⟩ := hd
    by_cases hk : k0 = k
    · subst hk
      simp [mapInsert]
      tauto
    · simp [mapInsert, hk, ih]
      tauto

/-- `mapInsert` preserves key uniqueness. -/
theorem keysNodup_mapInsert (m : FrozenMap) (k : Nat) (fr : FrozenResult)
    (h : keysNodup m) : keysNodup (mapInsert m k fr) := by
  induction m with
  | nil => simp [mapInsert, keysNodup]
  | cons hd tl ih =>
    obtain ⟨k0, f0⟩ := hd
    simp only [keysNodup, List.map_cons, List.nodup_cons] at h
    by_cases hk : k0 = k
    · subst hk
      simpa [mapInsert, keysNodup] using h
    · simp only [mapInsert, hk, if_false, keysNodup, List.map_cons, List.nodup_cons]
      exact ⟨fun hm => by
          rcases (mem_keys_mapInsert tl k k0 fr).mp hm with h' | h'
          · exact h.1 h'
          · exact hk h',
        ih h.2⟩

/-- Inserting under a key already present leaves the key list unchanged. -/
theorem keys_mapInsert_of_find (m : FrozenMap) (k : Nat) (fr fr0 : FrozenResult)
    (h : mapFind m k = some fr0) : (mapInsert m k fr).map Prod.fst = m.map Prod.fst := by
  induction m with
  | nil => simp [mapFind] at h
  | cons hd tl ih =>
    obtain ⟨k0, f0⟩ := hd
    by_cases hk : k0 = k
    · simp [mapInsert, hk]
    · simp only [mapFind, hk, if_false] at h
      simp [mapInsert, hk, ih h]

/-- `mapFind` after `mapInsert` under the same key. -/
theorem mapFind_mapInsert_self (m : FrozenMap) (k : Nat) (fr : FrozenResult) :
    mapFind (mapInsert m k fr) k = some fr := by
  induction m with
  | nil => simp [mapInsert, mapFind]
  | cons hd tl ih =>
    obtain ⟨k0, f0⟩ := hd
    by_cases hk : k0 = k
    · simp [mapInsert, mapFind, hk]
    · simp [mapInsert, mapFind, hk, ih]

/-- `mapErase` yields a sublist. -/
theorem mapErase_sublist (m : FrozenMap) (k : Nat) : (mapErase m k).Sublist m := by
  induction m with
  | nil => simp [mapErase]
  | cons hd tl ih =>
    obtain ⟨k0, f0⟩ := hd
    by_cases hk : k0 = k
    · simp only [mapErase, hk, if_true]
      exact (List.sublist_cons_self _ _)
    · simp only [mapErase, hk, if_false]
      exact ih.cons₂ _

/-- A found key is in the key list. -/
theorem mapFind_mem_keys (m : FrozenMap) (k : Nat) (fr : FrozenResult)
    (h : mapFind m k = some fr) : k ∈ m.map Prod.fst := by
  induction m with
  | nil => simp [mapFind] at h
  | cons hd tl ih =>
    obtain ⟨k0, f0⟩ := hd
    by_cases hk : k0 = k
    · simp [hk]
    · simp only [mapFind, hk, if_false] at h
      simp [ih h]

/-- C7: the frozen-results table keeps at most one entry per source
offset — key uniqueness is preserved by `getFrozen`, `newFreeze`,
`unfreeze` and the evaluation pass's sweep; a lookup of an entry whose
deadline has passed overwrites the passed-in value, marks the entry
`frozenUntil = Never` and removes nothing (lazy expiry, checked on
lookup); and the evaluation pass's sweep removes exactly the entries
whose deadline is `Never`. -/
theorem C7_frozen_results :
    (∀ (m : FrozenMap) (res : ExprValue) (now : Int), keysNodup m →
        keysNodup (getFrozen m res now).2.2) ∧
    (∀ (m : FrozenMap) (ek : Option Nat) (nr : ExprValue) (fu : Int) (upd : Bool) (now : Int),
        keysNodup m → keysNodup (newFreeze m ek nr fu upd now)) ∧
    (∀ (m : FrozenMap) (p : Nat), keysNodup m → keysNodup (unfreeze m p).2) ∧
    (∀ (m : FrozenMap), keysNodup m → keysNodup (sweepFrozen m)) ∧
    (∀ (m : FrozenMap) (res : ExprValue) (now : Int) (fr : FrozenResult),
        mapFind m res.pos = some fr → fr.frozen now = false →
        (getFrozen m res now).2.1 = fr.frozenResult ∧
        mapFind (getFrozen m res now).2.2 res.pos = some { fr with frozenUntil := Never } ∧
        ((getFrozen m res now).2.2).map Prod.fst = m.map Prod.fst) ∧
    (∀ (m : FrozenMap), keysNodup m → ∀ (k : Nat),
        mapFind (sweepFrozen m) k =
          (mapFind m k).bind (fun fr => if fr.frozenUntil = Never then none else some fr)) := by
  refine ⟨?_, ?_, ?_, ?_, ?_, ?_⟩
  · intro m res now h
    unfold getFrozen
    rcases hf : mapFind m res.pos with _ | fr
    · exact h
    · by_cases hfr : fr.frozen now
      · simp [hfr]; exact h
      · simp [hfr]
        exact keysNodup_mapInsert _ _ _ h
  · intro m ek nr fu upd now h
    unfold newFreeze
    rcases ek with _ | k
    · exact keysNodup_mapInsert _ _ _ h
    · rcases hf : mapFind m k with _ | fr
      · simp only [hf]
        exact h
      · simp only [hf]
        cases hb : (!(fr.frozen now) || upd || (fu == Never)) with
        | false =>
          simp only [hb, Bool.false_eq_true, if_false]
          exact h
        | true =>
          simp only [hb, if_true]
          exact keysNodup_mapInsert _ _ _ h
  · intro m p h
    unfold unfreeze
    rcases hf : mapFind m p with _ | fr
    · exact h
    · exact ((mapErase_sublist m p).map Prod.fst).nodup h
  · intro m h
    exact ((List.filter_sublist _).map Prod.fst).nodup h
  · intro m res now fr hf hfr
    have hg : getFrozen m res now =
        (some { fr with frozenUntil := Never }, fr.frozenResult,
          mapInsert m res.pos { fr with frozenUntil := Never }) := by
      unfold getFrozen
      simp only [hf]
      rw [if_neg (by simp [hfr])]
    rw [hg]
    exact ⟨rfl, mapFind_mapInsert_self _ _ _, keys_mapInsert_of_find _ _ _ _ hf⟩
  · intro m h k
    induction m with
    | nil => simp [sweepFrozen, mapFind]
    | cons hd tl ih =>
      obtain ⟨k0, f0⟩ := hd
      simp only [keysNodup, List.map_cons, List.nodup_cons] at h
      by_cases hk : k0 = k
      · subst hk
        by_cases hnev : f0.frozenUntil = Never
        · simp only [sweepFrozen, List.filter_cons, hnev, bne_self_eq_false,
            Bool.false_eq_true, if_false, mapFind]
          have htl : mapFind tl k0 = none := by
            rcases hmf : mapFind tl k0 with _ | v
            · rfl
            · exact absurd (mapFind_mem_keys tl k0 v hmf) h.1
          have := ih h.2
          rw [htl] at this
          simp only [sweepFrozen] at this
          simp [this, hnev]
        · simp [sweepFrozen, List.filter_cons, hnev, mapFind]
      · by_cases hnev : f0.frozenUntil = Never
        · simp only [sweepFrozen, List.filter_cons, hnev, bne_self_eq_false,
            Bool.false_eq_true, if_false]
          have := ih h.2
          simp only [sweepFrozen] at this
          simp [this, mapFind, hk]
        · simp only [sweepFrozen, List.filter_cons]
          have hb : (f0.frozenUntil != Never) = true := by simp [hnev]
          rw [hb]
          simp only [if_true, mapFind, hk, if_false]
          have := ih h.2
          simpa [sweepFrozen] using this

theorem C7_witness :
    keysNodup [(0, FrozenResult.mk (ExprValue.ofNum 7) 5)] ∧
    mapFind [(0, FrozenResult.mk (ExprValue.ofNum 7) 5)] (ExprValue.ofNum 1).pos =
      some (FrozenResult.mk (ExprValue.ofNum 7) 5) ∧
    (FrozenResult.mk (ExprValue.ofNum 7) 5).frozen 10 = false ∧
    (getFrozen [(0, FrozenResult.mk (ExprValue.ofNum 7) 5)] (ExprValue.ofNum 1) 10).2.1 =
      ExprValue.ofNum 7 ∧
    mapFind (getFrozen [(0, FrozenResult.mk (ExprValue.ofNum 7) 5)] (ExprValue.ofNum 1) 10).2.2
      (ExprValue.ofNum 1).pos = some (FrozenResult.mk (ExprValue.ofNum 7) Never) ∧
    keysNodup (getFrozen [(0, FrozenResult.mk (ExprValue.ofNum 7) 5)] (ExprValue.ofNum 1) 10).2.2 ∧
    mapFind (sweepFrozen [(0, FrozenResult.mk (ExprValue.ofNum 7) Never)]) 0 = none :=
  ⟨by decide, by decide, by decide,
    (C7_frozen_results.2.2.2.2.1 [(0, FrozenResult.mk (ExprValue.ofNum 7) 5)]
      (ExprValue.ofNum 1) 10 (FrozenResult.mk (ExprValue.ofNum 7) 5) (by decide) (by decide)).1,
    (C7_frozen_results.2.2.2.2.1 [(0, FrozenResult.mk (ExprValue.ofNum 7) 5)]
      (ExprValue.ofNum 1) 10 (FrozenResult.mk (ExprValue.ofNum 7) 5) (by decide)
      (by decide)).2.1,
    C7_frozen_results.1 _ _ 10 (by decide),
    by
      have := C7_frozen_results.2.2.2.2.2 [(0, FrozenResult.mk (ExprValue.ofNum 7) Never)]
        (by decide) 0
      simpa using this⟩

end P44
